import Mathlib

/-!
Verification of the graphchat backend (branching conversational AI server).

This file shallowly embeds the parts of the backend that the checked claims
are about:

* the graph-store snapshot (sessions, nodes, messages, REFERENCED_BY edges,
  branch recommendations), with composite properties (`metadata`,
  `source_node_ids`) held in their decoded form — the standard-library
  `json.dumps` / `json.loads` pair is external to the repository and is
  modelled as an abstract inverse pair, so a property written as JSON text
  of a map is represented by that map;
* `MessageService.get_conversation_history` together with
  `_get_reference_node_history` and `_get_node_messages_only`
  (src/backend/services/message_service.py), including a variant
  instrumented with a failing store to model the try/except blocks;
* the pure message-list preparation of `ChatService.process_chat`
  (token-budget check and `_prepare_messages`,
  src/backend/services/chat_service.py);
* `NodeService.create_node`, `get_node`, `update_node`, `has_children`
  (src/backend/services/node_service.py);
* the recommendation state machine of
  `BranchRecommendationService.update_recommendation`, `mark_as_created`,
  `mark_as_dismissed` (src/backend/services/branch_recommendation_service.py);
* the websocket chat pipeline, streaming and non-streaming
  (src/backend/api/endpoints/websocket.py), with the LLM adapter
  (chunks, analysis output, summaries) supplied as oracles, since the
  adapter is an external collaborator.

Python `datetime` timestamps are modelled as `Nat` (ISO-8601 UTC strings
compare identically to the instants they denote); machine floats only occur
as `word_count * 1.5` sums, which are exact halves, so `int(1.5 * w)` is
modelled as `3 * w / 2` in `Nat` and the comparison `1.5 * w > 4000` as
`3 * w > 8000`.
-/

namespace GraphChat

/-- Decoded JSON scalar values appearing in `metadata` maps. -/
inductive JVal where
  | jstr (s : String)
  | jnum (n : Int)
  | jbool (b : Bool)
  deriving DecidableEq

/-- A Python `dict` with string keys, in insertion order. -/
abbrev Mdata := List (String × JVal)

/-- Python dict assignment `d[k] = v`: overwrite in place, or append a new key. -/
def setKey (m : Mdata) (k : String) (v : JVal) : Mdata :=
  if m.any (fun p => p.1 == k) then
    m.map (fun p => if p.1 == k then (k, v) else p)
  else m ++ [(k, v)]

/-- Python `d.get(k)`. -/
def getKey (m : Mdata) (k : String) : Option JVal :=
  (m.find? (fun p => p.1 == k)).map (fun p => p.2)

/-- Python truthiness of a JSON scalar (`""`, `0`, `False` are falsy). -/
def jtruthy : Option JVal → Bool
  | none => false
  | some (.jstr s) => !(s == "")
  | some (.jnum n) => !(n == 0)
  | some (.jbool b) => b

/-- A `Message` entity as stored in the graph (`MessageService.create_message`).
`timestamp` abstracts the ISO-8601 UTC string.  The `embedding` property and
the per-message `token_count` property are not read by any checked claim and
are omitted. -/
structure Msg where
  id : String
  node_id : String
  role : String
  content : String
  timestamp : Nat
  deriving DecidableEq

/-- A `Node` entity as stored in the graph.  `source_node_ids` and the
`metadata` text are held in decoded form (`none` = property absent or null).
`content` is `none` when the property was never written
(`NodeService.create_node` does not persist `content`).  Bookkeeping
properties not read by any claim (`created_at`, `updated_at`, `is_active`,
`is_generating`, `message_count`, `token_count`, `children`) are omitted. -/
structure GNode where
  id : String
  session_id : String
  parent_id : Option String
  title : String
  content : Option String
  type : String
  depth : Nat
  is_summary : Bool
  is_reference : Bool
  source_node_ids : Option (List String)
  summary_content : Option String
  metadataStored : Option Mdata
  deriving DecidableEq

/-- A persisted `BranchRecommendation` entity (only the fields the pipeline
writes; the state-machine fields live in `BranchRec` below). -/
structure RecEntity where
  id : String
  message_id : String
  node_id : String
  session_id : String
  title : String
  status : String
  deriving DecidableEq

/-- A snapshot of the graph store.  `HAS_CHILD` edges are identified with the
`parent_id` property (they are written together and consistently by
`NodeService.create_node`); `HAS_MESSAGE` edges are identified with
`Msg.node_id` (written together by `MessageService.create_message`);
`refEdges` holds `REFERENCED_BY` pairs `(source, reference)`. -/
structure Graph where
  sessions : List String
  nodes : List GNode
  messages : List Msg
  refEdges : List (String × String)
  recs : List RecEntity
  deriving DecidableEq

def findNode (g : Graph) (nid : String) : Option GNode :=
  g.nodes.find? (fun n => n.id == nid)

/-- Python `str.isspace` for the whitespace characters relevant here. -/
def isSpaceChar (c : Char) : Bool := c == ' ' || c == '\n' || c == '\t' || c == '\r'

/-- Count maximal non-whitespace runs (the length of Python `s.split()`). -/
def countWords : List Char → Bool → Nat
  | [], _ => 0
  | c :: rest, inWord =>
    if isSpaceChar c then countWords rest false
    else (if inWord then 0 else 1) + countWords rest true

/-- `len(s.split())`: number of whitespace-separated words. -/
def wordCount (s : String) : Nat := countWords s.data false

def sumWords (l : List Msg) : Nat :=
  (l.map (fun m => wordCount m.content)).sum

/-- `int(sum(len(m.content.split()) * 1.5 for m in l))`; the float sum of
exact halves equals `3 * W / 2`. -/
def tokens15 (l : List Msg) : Nat := 3 * sumWords l / 2

/-- Timestamp order used by `ORDER BY m.timestamp` and by Python `sort`. -/
def msgLE (a b : Msg) : Prop := a.timestamp ≤ b.timestamp

instance : DecidableRel msgLE := fun a b => Nat.decLe a.timestamp b.timestamp

instance : IsTotal Msg msgLE := ⟨fun a b => Nat.le_total a.timestamp b.timestamp⟩

instance : IsTrans Msg msgLE := ⟨fun _ _ _ h h2 => Nat.le_trans h h2⟩

/-- Sorting a result set by `timestamp` ascending. -/
def sortByTimestamp (l : List Msg) : List Msg := List.insertionSort msgLE l

/-- `MATCH (n)-[:HAS_MESSAGE]->(m) WHERE n.id IN ids RETURN m ORDER BY m.timestamp`. -/
def fetchMessagesSorted (g : Graph) (ids : List String) : List Msg :=
  sortByTimestamp (g.messages.filter (fun m => ids.contains m.node_id))

/-- `MessageService.list_messages(node_id)` with the default
`skip = 0, limit = 50`. -/
def list_messages (g : Graph) (nid : String) : List Msg :=
  (sortByTimestamp (g.messages.filter (fun m => m.node_id == nid))).take 50

/-- The halting test of the root-ward walk:
`node.get("is_summary") or node.get("type") == "summary"`. -/
def isSummaryNode (n : GNode) : Bool := n.is_summary || n.type == "summary"

/-- The ancestor chain `target, parent, grandparent, …` followed through
`parent_id` (= the `HAS_CHILD*0..` path of the Cypher query, ordered by
distance), cut off by fuel.  For a snapshot whose parent chains are acyclic —
which every write path of the repository preserves — a fuel of
`g.nodes.length + 1` is exact. -/
def ancestorChain (g : Graph) : Nat → Option String → List GNode
  | 0, _ => []
  | _, none => []
  | fuel + 1, some nid =>
    match findNode g nid with
    | none => []
    | some n => n :: ancestorChain g fuel n.parent_id

def ancestorPathFull (g : Graph) (nid : String) : List GNode :=
  ancestorChain g (g.nodes.length + 1) (some nid)

/-- The collection loop over the ancestor path: append ids until (and
including) the first summary node; the flag records whether the walk halted
at a summary node. -/
def takeUntilSummary : List GNode → List String × Bool
  | [] => ([], false)
  | n :: rest =>
    if isSummaryNode n then ([n.id], true)
    else
      let r := takeUntilSummary rest
      (n.id :: r.1, r.2)

/-- `ConversationHistory` (src/backend/schemas/service_responses.py). -/
structure ConversationHistory where
  messages : List Msg
  total_tokens : Nat
  is_summarized : Bool
  deriving DecidableEq

def emptyHistory : ConversationHistory := ⟨[], 0, false⟩

/-- `MessageService._get_node_messages_only`. -/
def get_node_messages_only (g : Graph) (nid : String) : ConversationHistory :=
  let msgs := sortByTimestamp (g.messages.filter (fun m => m.node_id == nid))
  ⟨msgs, tokens15 msgs, false⟩

/-- The non-reference body of `get_conversation_history`: ancestor walk with
summary cut-off, single batched message fetch (`include_ancestors = true`),
or `list_messages` (`include_ancestors = false`). -/
def ordinaryHistory (g : Graph) (nid : String) (inc : Bool) : ConversationHistory :=
  if inc then
    let w := takeUntilSummary (ancestorPathFull g nid)
    let msgs := if w.1.isEmpty then [] else fetchMessagesSorted g w.1
    ⟨msgs, tokens15 msgs, w.2⟩
  else
    let msgs := list_messages g nid
    ⟨msgs, tokens15 msgs, false⟩

/-- Append messages one by one, skipping ids already present
(the `seen_message_ids` set of `_get_reference_node_history`). -/
def dedupAppend (acc : List Msg) (new : List Msg) : List Msg :=
  new.foldl (fun a m => if a.any (fun x => x.id == m.id) then a else a ++ [m]) acc

/-- The parent lookup of `_get_reference_node_history`:
`MATCH (current {id: nid})<-[:HAS_CHILD]-(parent) RETURN parent.id`
(both endpoints must exist for the edge to match). -/
def parentLookup (g : Graph) (nid : String) : Option String :=
  ((findNode g nid).bind (fun n => n.parent_id)).bind
    (fun pid => if g.nodes.any (fun p => p.id == pid) then some pid else none)

/-- The body of `_get_reference_node_history` after the recursive parent
call, whose already-computed message list is passed in as `parentMsgs`:
decode `source_node_ids` (falling back to the `REFERENCED_BY` relation),
walk each source root-ward up to the first summary node, collect messages
(these two per-source queries carry no ORDER BY), add the reference node's
own messages, de-duplicate by id throughout, and sort everything by
timestamp.  The returned `is_summarized` is the literal `False` of the
source. -/
def referenceCore (g : Graph) (nid : String) (src : Option (List String))
    (parentMsgs : List Msg) : ConversationHistory :=
  let acc0 := dedupAppend [] parentMsgs
  let s0 := src.getD []
  let sources :=
    if s0.isEmpty then (g.refEdges.filter (fun e => e.2 == nid)).map (fun e => e.1)
    else s0
  if sources.isEmpty && acc0.isEmpty then
    get_node_messages_only g nid
  else
    let acc1 := sources.foldl (fun acc sid =>
      let w := takeUntilSummary (ancestorPathFull g sid)
      let ms := if w.1.isEmpty then [] else g.messages.filter (fun m => w.1.contains m.node_id)
      dedupAppend acc ms) acc0
    let acc2 := dedupAppend acc1 (g.messages.filter (fun m => m.node_id == nid))
    let msgs := sortByTimestamp acc2
    ⟨msgs, tokens15 msgs, false⟩

/-- `MessageService.get_conversation_history`.  The fuel bounds the recursion
through reference-node parents (`_get_reference_node_history` recursively
assembles the parent's history); Python's stack limit plays the same role
there, and exhaustion is caught by the same `except` that yields the empty
default. -/
def get_conversation_history (g : Graph) : Nat → String → Bool → ConversationHistory
  | 0, _, _ => emptyHistory
  | fuel + 1, nid, inc =>
    match findNode g nid with
    | some n =>
      if n.is_reference || n.type == "reference" then
        let parentMsgs :=
          match parentLookup g nid with
          | some pid => (get_conversation_history g fuel pid true).messages
          | none => []
        referenceCore g nid n.source_node_ids parentMsgs
      else ordinaryHistory g nid inc
    | none => ordinaryHistory g nid inc

/-! ### Store-failure instrumentation of `get_conversation_history`

`get_conversation_history`, `_get_reference_node_history` and
`_get_node_messages_only` each wrap their whole body in
`try: … except: return ConversationHistory([], 0, False)`.  To model this,
every store round-trip is routed through `dbq`, which raises when the store
is unavailable.  The failure model is all-or-nothing (`storeOk : Bool` for
the whole store), so consecutive queries may be collapsed into one `dbq`
without changing the semantics. -/

/-- One store round-trip: returns the decoded result, or raises when the
store is down. -/
def dbq {α : Type} (storeOk : Bool) (res : α) : Except Unit α :=
  match storeOk with
  | true => .ok res
  | false => .error ()

/-- `try: body except: return ConversationHistory([], 0, False)`. -/
def catchEmpty (body : Except Unit ConversationHistory) : ConversationHistory :=
  match body with
  | .ok h => h
  | .error _ => emptyHistory

/-- `_get_node_messages_only` with its own try/except (it issues a single
query). -/
def get_node_messages_onlyF (g : Graph) (storeOk : Bool) (nid : String) :
    ConversationHistory :=
  catchEmpty (dbq storeOk (get_node_messages_only g nid))

/-- The body of `_get_reference_node_history` with its own try/except; the
recursively assembled parent history (itself already exception-safe) is
passed in as `parentMsgs`.  Its first store access is the parent-lookup
query; because the failure model is all-or-nothing, the remaining queries of
the body are collapsed into one `dbq` of the pure result, which has the same
semantics: with the store down the first access already aborts into the
`except`, and with the store up every access succeeds. -/
def referenceCoreF (g : Graph) (storeOk : Bool) (nid : String)
    (src : Option (List String)) (parentMsgs : List Msg) : ConversationHistory :=
  catchEmpty (do
    let _ ← dbq storeOk (parentLookup g nid)
    dbq storeOk (referenceCore g nid src parentMsgs))

/-- The non-reference body of `get_conversation_history` (runs inside the
outer try): the walk query, then the batched message fetch. -/
def ordinaryHistoryF (g : Graph) (storeOk : Bool) (nid : String) (inc : Bool) :
    Except Unit ConversationHistory :=
  if inc then do
    let w ← dbq storeOk (takeUntilSummary (ancestorPathFull g nid))
    let msgs ← dbq storeOk (if w.1.isEmpty then [] else fetchMessagesSorted g w.1)
    return ⟨msgs, tokens15 msgs, w.2⟩
  else do
    let msgs ← dbq storeOk (list_messages g nid)
    return ⟨msgs, tokens15 msgs, false⟩

/-- `get_conversation_history` with every store round-trip instrumented; the
first access of the body is the node-type check query, so an unavailable
store aborts straight into the `except` branch. -/
def get_conversation_historyF (g : Graph) (storeOk : Bool) :
    Nat → String → Bool → ConversationHistory
  | 0, _, _ => emptyHistory
  | fuel + 1, nid, inc =>
    catchEmpty (do
      let nodeCheck ← dbq storeOk (findNode g nid)
      match nodeCheck with
      | some n =>
        if n.is_reference || n.type == "reference" then
          let parentMsgs :=
            match parentLookup g nid with
            | some pid => (get_conversation_historyF g storeOk fuel pid true).messages
            | none => []
          return referenceCoreF g storeOk nid n.source_node_ids parentMsgs
        else ordinaryHistoryF g storeOk nid inc
      | none => ordinaryHistoryF g storeOk nid inc)

/-! ### ChatService: LLM message-list preparation (process_chat steps 2–3) -/

/-- A message in the shape handed to the LLM adapter
(`backend.schemas.ai_models.Message`). -/
structure AIMsg where
  role : String
  content : String
  deriving DecidableEq

/-- The system instruction prepended by `ChatService._prepare_messages`. -/
def system_instruction : AIMsg :=
  ⟨"system", "당신은 도움이 되는 AI 어시스턴트입니다."⟩

/-- `ChatService._prepare_messages`: prepend the system instruction and, when
more than 21 entries result, keep only the instruction plus the last 20. -/
def prepare_messages (history : List Msg) : List AIMsg :=
  let ms := system_instruction :: history.map (fun m => AIMsg.mk m.role m.content)
  if 21 < ms.length then system_instruction :: ms.drop (ms.length - 20) else ms

/-- The synthesised summary message of the token-budget branch
(`Message(id="summary", node_id="summary", role="system", …)`; the
irrelevant `datetime.utcnow()` timestamp is modelled as `0`). -/
def summary_system_message (summary : String) : Msg :=
  ⟨"summary", "summary", "system", "이전 대화 요약: " ++ summary, 0⟩

/-- Twice the float token estimate of `process_chat` step 3
(`sum(len(m.content.split()) * 1.5) + len(request.message.split()) * 1.5`),
kept in `Nat`; the source comparison `total_tokens > 4000` is exactly
`chat_token_estimate_x2 > 8000`. -/
def chat_token_estimate_x2 (history : List Msg) (userText : String) : Nat :=
  3 * (sumWords history + wordCount userText)

/-- `ChatService.process_chat` steps 3–4: the message list handed to
`gemini.chat_completion`, given the assembled history, the working node id,
the request text, and the `summarize_messages` oracle output. -/
def process_chat_llm_input (history : List Msg) (target userText summaryText : String) :
    List AIMsg :=
  let base :=
    if 8000 < chat_token_estimate_x2 history userText then
      let parentMsgs := history.filter (fun m => m.node_id != target)
      let currentMsgs := history.filter (fun m => m.node_id == target)
      if parentMsgs.isEmpty then prepare_messages currentMsgs
      else prepare_messages (summary_system_message summaryText :: currentMsgs)
    else prepare_messages history
  base ++ [AIMsg.mk "user" userText]

/-! ### NodeService -/

/-- The decoded `Node` pydantic model returned by `NodeService.get_node`. -/
structure NodeView where
  id : String
  session_id : String
  title : String
  content : String
  type : String
  parent_id : Option String
  source_node_ids : Option (List String)
  depth : Nat
  is_summary : Bool
  summary_content : Option String
  metadata : Mdata
  message_count : Nat
  deriving DecidableEq

/-- `NodeService.get_node`: decode the stored node, count its `HAS_MESSAGE`
edges, decode `metadata` (absent/null ↦ `{}`) and then execute
`metadata["message_count"] = message_count`. -/
def get_node (g : Graph) (nid : String) : Option NodeView :=
  (findNode g nid).map (fun n =>
    let mc := (g.messages.filter (fun m => m.node_id == nid)).length
    { id := n.id
      session_id := n.session_id
      title := n.title
      content := n.content.getD ""
      type := n.type
      parent_id := n.parent_id
      source_node_ids := n.source_node_ids
      depth := n.depth
      is_summary := n.is_summary
      summary_content := n.summary_content
      metadata := setKey (n.metadataStored.getD []) "message_count" (.jnum mc)
      message_count := mc })

/-- `NodeService.has_children`: O(1) existence check over `HAS_CHILD`. -/
def has_children (g : Graph) (nid : String) : Bool :=
  g.nodes.any (fun n => n.parent_id == some nid)

/-- `NodeCreate` (src/backend/schemas/node.py). -/
structure NodeCreate where
  title : String
  type : String
  metadata : Mdata
  parent_id : Option String
  content : Option String
  is_summary : Bool
  summary_content : Option String
  deriving DecidableEq

/-- Replace the stored `summary_content` of one node
(the UPDATE query of `NodeService._generate_parent_summary_if_needed`). -/
def storeSummaryContent (g : Graph) (nid : String) (s : String) : Graph :=
  { g with nodes := g.nodes.map (fun n =>
      if n.id == nid then { n with summary_content := some s } else n) }

/-- `NodeService._generate_parent_summary_if_needed`: if the parent exists,
has no `summary_content` yet and carries at least two messages, store the
`summarize_messages` result (`parentSummary` oracle; `none` models an LLM
failure, which the except block turns into a no-op). -/
def generate_parent_summary_if_needed (g : Graph) (pid : String)
    (parentSummary : Option String) : Graph :=
  match findNode g pid with
  | none => g
  | some p =>
    if p.summary_content.isSome then g
    else if (list_messages g pid).length < 2 then g
    else
      match parentSummary with
      | none => g
      | some s => storeSummaryContent g pid s

/-- `NodeService.create_node`.  The Cypher CREATE always persists the node
(without `content` and without `source_node_ids` — the query stores
neither); the session link, and the `HAS_CHILD` edge when parented, only
materialise when the matched entities exist, and the decoded node is
returned (`none` when the trailing MATCH produced no row, in which case the
Python function falls off the `if result:` and returns `None`).  A parented
create then triggers the parent auto-summary. -/
def create_node (g : Graph) (sessionId : String) (nc : NodeCreate) (newId : String)
    (parentSummary : Option String) : Graph × Option GNode :=
  let depth :=
    match nc.parent_id with
    | some pid =>
      match get_node g pid with
      | some pv => pv.depth + 1
      | none => 0
    | none => 0
  let n : GNode :=
    { id := newId
      session_id := sessionId
      parent_id := nc.parent_id
      title := nc.title
      content := none
      type := nc.type
      depth := depth
      is_summary := nc.is_summary
      is_reference := false
      source_node_ids := none
      summary_content := nc.summary_content
      metadataStored := some nc.metadata }
  let g1 : Graph := { g with nodes := g.nodes ++ [n] }
  let ok := g.sessions.contains sessionId &&
    (match nc.parent_id with
     | some pid => g.nodes.any (fun p => p.id == pid)
     | none => true)
  if ok then
    let g2 :=
      match nc.parent_id with
      | some pid => generate_parent_summary_if_needed g1 pid parentSummary
      | none => g1
    (g2, some n)
  else (g1, none)

/-- The metadata branch of `NodeService.update_node`: store
`json.dumps(update.metadata)` over the existing property. -/
def update_node_metadata (g : Graph) (nid : String) (m : Mdata) : Graph :=
  { g with nodes := g.nodes.map (fun n =>
      if n.id == nid then { n with metadataStored := some m } else n) }

/-! ### BranchRecommendationService state machine -/

/-- The mutable state of one `BranchRecommendation`
(timestamps as `Nat`; a fresh record has none of the optional fields). -/
structure BranchRec where
  status : String
  created_branch_id : Option String
  dismissed_at : Option Nat
  updated_at : Option Nat
  deriving DecidableEq

/-- `create_recommendation` persists `status = PENDING` and neither
`created_branch_id` nor `dismissed_at`. -/
def new_branch_rec : BranchRec := ⟨"pending", none, none, none⟩

/-- `BranchRecommendationUpdate` (src/backend/schemas/branch_recommendation.py);
`status` values range over the four nonempty enum strings. -/
structure RecUpdate where
  status : Option String
  created_branch_id : Option String
  dismissed_at : Option Nat
  deriving DecidableEq

/-- `BranchRecommendationService.update_recommendation`: each field is applied
under Python truthiness (`if update.status:` — enum values are nonempty
strings, so any provided status applies; `if update.created_branch_id:` — an
empty string is falsy and is skipped; `if update.dismissed_at:` — datetimes
are always truthy), and `updated_at` is always refreshed. -/
def update_recommendation (r : BranchRec) (u : RecUpdate) (now : Nat) : BranchRec :=
  let r1 := match u.status with
    | some s => { r with status := s }
    | none => r
  let r2 := match u.created_branch_id with
    | some b => if b == "" then r1 else { r1 with created_branch_id := some b }
    | none => r1
  let r3 := match u.dismissed_at with
    | some t => { r2 with dismissed_at := some t }
    | none => r2
  { r3 with updated_at := some now }

/-- `BranchRecommendationService.mark_as_created`. -/
def mark_as_created (r : BranchRec) (bid : String) (now : Nat) : BranchRec :=
  update_recommendation r ⟨some "created", some bid, none⟩ now

/-- `BranchRecommendationService.mark_as_dismissed` (the dismissal time is
`datetime.utcnow()` at the call). -/
def mark_as_dismissed (r : BranchRec) (now : Nat) : BranchRec :=
  update_recommendation r ⟨some "dismissed", none, some now⟩ now

/-- One lifecycle operation applied to a recommendation after creation. -/
inductive RecOp where
  | upd (u : RecUpdate) (now : Nat)
  | created (bid : String) (now : Nat)
  | dismissed (now : Nat)
  deriving DecidableEq

def applyRecOp (r : BranchRec) : RecOp → BranchRec
  | .upd u now => update_recommendation r u now
  | .created bid now => mark_as_created r bid now
  | .dismissed now => mark_as_dismissed r now

/-- The state reached from a fresh recommendation by a sequence of
operations. -/
def applyRecOps (l : List RecOp) : BranchRec :=
  l.foldl applyRecOp new_branch_rec

/-- The claimed invariant: `created_branch_id` set iff `status = created`,
`dismissed_at` set iff `status = dismissed`. -/
def recInvariant (r : BranchRec) : Prop :=
  (r.status = "created" ↔ r.created_branch_id ≠ none) ∧
  (r.status = "dismissed" ↔ r.dismissed_at ≠ none)

instance (r : BranchRec) : Decidable (recInvariant r) := by
  unfold recInvariant; infer_instance

def isCreatedOp : RecOp → Bool
  | .created _ _ => true
  | _ => false

def isDismissedOp : RecOp → Bool
  | .dismissed _ => true
  | _ => false

/-- A mark operation as issued by the two service entry points (`upd` is not
a mark; a created-mark is well-formed when its branch id is a nonempty
string, as the HTTP layer requires). -/
def markOpOk : RecOp → Prop
  | .created bid _ => bid ≠ ""
  | .dismissed _ => True
  | .upd _ _ => False

instance (op : RecOp) : Decidable (markOpOk op) := by
  cases op <;> simp [markOpOk] <;> infer_instance

/-! ### The websocket chat pipeline (src/backend/api/endpoints/websocket.py)

The LLM adapter and clocks are external; the pipeline model takes them as a
configuration of oracles: fresh ids, timestamps, the stream chunks (plus a
failure flag), the `analyze_branching` output, and the two summary oracles.
Events are the frames broadcast to the session room (direct per-socket error
frames are represented by `wsError`). -/

/-- `ChatProcessResult` (fields not read by any claim are dropped:
`new_nodes` is always `[]` and `branched` always `False` on every path of
`process_chat`). -/
structure ChatProcessResult where
  response : String
  node_id : String
  total_tokens : Nat
  message_id : Option String
  recommended_branches : List String
  deriving DecidableEq

inductive WSEvent where
  | creatingReferenceNode (parentId : String)
  | referenceNodeCreated (parentId refId label : String)
  | generatingSummary (nodeId : String)
  | summaryGenerated (nodeId : String)
  | streamStart (nodeId msgId : String)
  | streamChunk (nodeId chunk : String)
  | streamEnd (nodeId msgId fullResponse : String) (recTitles : List String)
  | chatResponse (resp : ChatProcessResult)
  | wsError (msg : String)
  deriving DecidableEq

/-- The oracle configuration for one chat turn. -/
structure ChatCfg where
  refNodeId : String
  userMsgId : String
  aiMsgId : String
  tUser : Nat
  tAi : Nat
  llmChunks : List String
  llmFails : Bool
  summaryOracle : Option String
  parentSummaryOracle : Option String
  branches : List String
  recIds : List String
  persistUserFails : Bool
  fuel : Nat
  deriving DecidableEq

/-- The chunk `ChatService.stream_chat` yields after catching a streaming
exception. -/
def streamErrText : String := "스트리밍 중 오류가 발생했습니다."

/-- The chunk sequence observed by the websocket loop: `stream_chat` yields
the adapter's chunks and, when the adapter raises mid-way, one final
error-text chunk instead of propagating. -/
def effectiveChunks (cfg : ChatCfg) : List String :=
  cfg.llmChunks ++ if cfg.llmFails then [streamErrText] else []

/-- `ChatService._generate_node_summary_if_needed`: with fewer than two
messages on the node it returns `None` without touching the store; otherwise
it stores the summary (with its bookkeeping keys) into the node's metadata
via `update_node` and returns it.  The stored `summary_generated_at`
datetime string is irrelevant to every claim and modelled as `""`. -/
def generate_node_summary_if_needed (g : Graph) (nid : String)
    (oracle : Option String) : Graph × Option String :=
  let msgs := list_messages g nid
  if msgs.length < 2 then (g, none)
  else
    match oracle with
    | none => (g, none)
    | some s =>
      match get_node g nid with
      | none => (g, none)
      | some v =>
        let md := setKey (setKey (setKey (setKey v.metadata
          "summary" (.jstr s))
          "summary_generated_at" (.jstr ""))
          "summary_token_count" (.jnum (2 * wordCount s)))
          "summary_original_count" (.jnum msgs.length)
        (update_node_metadata g nid md, some s)

/-- `BranchRecommendationService.create_recommendations_batch` as invoked by
the streaming path: one pending entity per recommended branch. -/
def create_recommendations_batch (g : Graph) (sessionId nodeId messageId : String)
    (titles ids : List String) : Graph :=
  { g with recs := g.recs ++ (ids.zip titles).map (fun p =>
      ⟨p.1, messageId, nodeId, sessionId, p.2, "pending"⟩) }

/-- The auto-reference phase of the streaming `chat` handler (websocket.py
lines 66–145): when the target has children, emit `creating_reference_node`,
create the reference node (`NodeCreate` with `type="reference"` and
`parent_id=node_id`; the create query stores no `source_node_ids`), emit
`reference_node_created` with the "대화 계속" edge, run the parent
metadata-summary step with its events, and switch the working node id to the
new node.  Returns `(events, graph, some workingNodeId)`, or `none` when the
handler aborted with an error frame. -/
def autoRefPhase (g : Graph) (_sessionId nodeId : String) (cfg : ChatCfg) :
    List WSEvent × Graph × Option String :=
  if has_children g nodeId then
    match get_node g nodeId with
    | none => ([.wsError "부모 노드를 찾을 수 없습니다"], g, none)
    | some parent =>
      let ev1 := WSEvent.creatingReferenceNode nodeId
      let nc : NodeCreate :=
        { title := "대화 계속: " ++ parent.title
          type := "reference"
          metadata := []
          parent_id := some nodeId
          content := some ""
          is_summary := false
          summary_content := none }
      match create_node g parent.session_id nc cfg.refNodeId cfg.parentSummaryOracle with
      | (g1, none) =>
        -- `create_node` returned `None`; `reference_node.id` raises and the
        -- outer handler sends an error frame.
        ([ev1, .wsError "참조 노드 생성 실패"], g1, none)
      | (g1, some _) =>
        let ev2 := WSEvent.referenceNodeCreated nodeId cfg.refNodeId "대화 계속"
        if jtruthy (getKey parent.metadata "summary") then
          ([ev1, ev2], g1, some cfg.refNodeId)
        else
          let ev3 := WSEvent.generatingSummary nodeId
          match generate_node_summary_if_needed g1 nodeId cfg.summaryOracle with
          | (g2, some _) =>
            ([ev1, ev2, ev3, .summaryGenerated nodeId], g2, some cfg.refNodeId)
          | (g2, none) => ([ev1, ev2, ev3], g2, some cfg.refNodeId)
  else ([], g, some nodeId)

/-- The streaming `chat` handler (websocket.py lines 47–268).  The assembled
conversation history is consumed only by the LLM adapter, whose output is
the `llmChunks`/`branches` oracles, so it does not reappear in the result.
A failing user-message persist raises out of the step-1 `create_message`;
the outer handler answers with an error frame and no further event is
emitted. -/
def handleStreamChat (g : Graph) (sessionId nodeId userText : String)
    (autoBranch : Bool) (cfg : ChatCfg) : List WSEvent × Graph :=
  let phase := autoRefPhase g sessionId nodeId cfg
  match phase.2.2 with
  | none => (phase.1, phase.2.1)
  | some workId =>
    let evs0 := phase.1
    let g0 := phase.2.1
    if cfg.persistUserFails then (evs0 ++ [.wsError "메시지 저장 실패"], g0)
    else
      let userMsg : Msg := ⟨cfg.userMsgId, workId, "user", userText, cfg.tUser⟩
      let g1 : Graph := { g0 with messages := g0.messages ++ [userMsg] }
      let chunks := effectiveChunks cfg
      let full := String.join chunks
      let aiMsg : Msg := ⟨cfg.aiMsgId, workId, "assistant", full, cfg.tAi⟩
      let g2 : Graph := { g1 with messages := g1.messages ++ [aiMsg] }
      let recTitles := if autoBranch then cfg.branches else []
      let g3 :=
        if autoBranch && !cfg.branches.isEmpty then
          create_recommendations_batch g2 sessionId workId cfg.aiMsgId
            cfg.branches cfg.recIds
        else g2
      (evs0 ++ [.streamStart workId cfg.userMsgId]
        ++ chunks.map (WSEvent.streamChunk workId)
        ++ [.streamEnd workId cfg.aiMsgId full recTitles], g3)

/-- The fallback result of the catch-all `except` of
`ChatService.process_chat`. -/
def fallbackChatResult (nid : String) : ChatProcessResult :=
  ⟨"죄송합니다. 응답 생성 중 오류가 발생했습니다.", nid, 0, none, []⟩

/-- `ChatService.process_chat` (non-streaming turn; `llmResp` is the
`chat_completion` oracle, `none` standing for a falsy response).  A failure
while persisting the user message is caught by the surrounding `except`,
which returns the fallback result instead of propagating; nothing is
persisted in that case. -/
def process_chat (g : Graph) (nodeId userText : String) (autoBranch : Bool)
    (cfg : ChatCfg) (summaryText : String) (llmResp : Option String) :
    ChatProcessResult × Graph :=
  if cfg.persistUserFails then (fallbackChatResult nodeId, g)
  else
    let userMsg : Msg := ⟨cfg.userMsgId, nodeId, "user", userText, cfg.tUser⟩
    let g1 : Graph := { g with messages := g.messages ++ [userMsg] }
    let history := (get_conversation_history g1 cfg.fuel nodeId true).messages
    let _llmInput := process_chat_llm_input history nodeId userText summaryText
    let aiText := llmResp.getD "죄송합니다. 응답을 생성할 수 없습니다."
    let aiMsg : Msg := ⟨cfg.aiMsgId, nodeId, "assistant", aiText, cfg.tAi⟩
    let g2 : Graph := { g1 with messages := g1.messages ++ [aiMsg] }
    let recs := if autoBranch then cfg.branches else []
    let totalT := chat_token_estimate_x2 history userText / 2
    (⟨aiText, nodeId, totalT, some cfg.aiMsgId, recs⟩, g2)

/-- The non-streaming `chat` branch of the websocket handler (lines
270–303): call `process_chat` and broadcast one `chat_response` frame with
its result — on every outcome of `process_chat`, including its internal
fallback. -/
def handleNonStreamChat (g : Graph) (_sessionId nodeId userText : String)
    (autoBranch : Bool) (cfg : ChatCfg) (summaryText : String)
    (llmResp : Option String) : List WSEvent × Graph :=
  let r := process_chat g nodeId userText autoBranch cfg summaryText llmResp
  ([.chatResponse r.1], r.2)

/-! ### Concrete snapshots and configurations used by the counterexamples
and witnesses -/

/-- The strict timestamp order asserted by the invariant of spec §4.3. -/
def msgLT (a b : Msg) : Prop := a.timestamp < b.timestamp

instance : DecidableRel msgLT := fun a b => Nat.decLt a.timestamp b.timestamp

/-- An ordinary root node `A`. -/
def nodeMainA : GNode :=
  ⟨"A", "s", none, "A", none, "main", 0, false, false, none, none, some []⟩

def mA1 : Msg := ⟨"m1", "A", "user", "hi", 5⟩

def mA2 : Msg := ⟨"m2", "A", "assistant", "yo", 5⟩

/-- A snapshot where two distinct messages on the same node share a
timestamp (nothing in `create_message` prevents equal `datetime.now()`
values). -/
def gTie : Graph := ⟨["s"], [nodeMainA], [mA1, mA2], [], []⟩

/-- A summary root `U`. -/
def nodeSumU : GNode :=
  ⟨"U", "s", none, "U", none, "summary", 0, true, false, none, none, some []⟩

/-- An ordinary node `S` under the summary node `U`. -/
def nodeMainS : GNode :=
  ⟨"S", "s", some "U", "S", none, "main", 1, false, false, none, none, some []⟩

/-- A floating reference node `R` with source `S`. -/
def nodeRefR : GNode :=
  ⟨"R", "s", none, "R", none, "reference", 1, false, true, some ["S"], none, some []⟩

def mS1 : Msg := ⟨"ms", "S", "user", "hello", 1⟩

/-- A snapshot where the reference node `R` reaches the summary ancestor `U`
through its source walk from `S`. -/
def gRef : Graph := ⟨["s"], [nodeSumU, nodeMainS, nodeRefR], [mS1], [], []⟩

/-- `B`, a child of `A` (so `A` has children). -/
def nodeChildB : GNode :=
  ⟨"B", "s", some "A", "B", none, "main", 1, false, false, none, none, some []⟩

/-- A snapshot where the chat target `A` already has a child. -/
def gParent : Graph := ⟨["s"], [nodeMainA, nodeChildB], [], [], []⟩

/-- A snapshot where the chat target `A` is a leaf. -/
def gLeaf : Graph := ⟨["s"], [nodeMainA], [], [], []⟩

/-- A plain streaming-turn configuration. -/
def cfgStream : ChatCfg :=
  ⟨"R", "u1", "a1", 10, 11, ["hel", "lo"], false, none, none, [], [], false, 5⟩

/-- The same turn with the LLM stream failing mid-way. -/
def cfgStreamFail : ChatCfg := { cfgStream with llmFails := true }

/-- The same turn with the user-message persist failing. -/
def cfgPersistFail : ChatCfg := { cfgStream with persistUserFails := true }

/-- A one-word message on a parent node `p`. -/
def msgParentW : Msg := ⟨"p1", "p", "user", "w", 1⟩

/-- A one-word message on the current node `c`. -/
def msgCurX : Msg := ⟨"c1", "c", "user", "x", 2⟩

/-- An assembled history whose parent portion alone exceeds the token
budget. -/
def histParentHeavy : List Msg := List.replicate 2700 msgParentW ++ [msgCurX]

/-- An assembled history that exceeds the token budget with every message on
the current node. -/
def histCurrentHeavy : List Msg := List.replicate 2700 msgCurX

/-- Dismiss, then accept: the operation sequence that breaks the claimed
recommendation invariant. -/
def opsMixed : List RecOp := [.dismissed 1, .created "b" 2]

/-- A mark-only sequence of a single kind. -/
def opsCreatedOnly : List RecOp := [.created "b" 1, .created "b2" 2]

/-- A snapshot holding just a session. -/
def gEmptySession : Graph := ⟨["s"], [], [], [], []⟩

/-- A node-create payload with a nonempty metadata map. -/
def ncMeta : NodeCreate := ⟨"t", "main", [("a", .jstr "1")], none, none, false, none⟩

/-- The decoded view of node `A` in `gParent` / `gLeaf`. -/
def pvA : NodeView :=
  ⟨"A", "s", "A", "", "main", none, none, 0, false, none,
    [("message_count", JVal.jnum 0)], 0⟩

/-- The node record persisted by a parentless `create_node` (statement
abbreviation for the C9 theorem). -/
def createdNodeRecord (sessionId : String) (nc : NodeCreate) (newId : String)
    (depth : Nat) : GNode :=
  { id := newId
    session_id := sessionId
    parent_id := nc.parent_id
    title := nc.title
    content := none
    type := nc.type
    depth := depth
    is_summary := nc.is_summary
    is_reference := false
    source_node_ids := none
    summary_content := nc.summary_content
    metadataStored := some nc.metadata }

/-- The node record that the auto-reference phase persists for a parent view
`pv` (statement abbreviation; the C3 theorem proves this is what
`create_node` stores). -/
def referenceNodeRecord (nid : String) (cfg : ChatCfg) (pv : NodeView) : GNode :=
  { id := cfg.refNodeId
    session_id := pv.session_id
    parent_id := some nid
    title := "대화 계속: " ++ pv.title
    content := none
    type := "reference"
    depth := pv.depth + 1
    is_summary := false
    is_reference := false
    source_node_ids := none
    summary_content := none
    metadataStored := some [] }

/-! ## Helper lemmas -/

theorem sorted_sortByTimestamp (l : List Msg) :
    List.Sorted msgLE (sortByTimestamp l) :=
  List.sorted_insertionSort msgLE l

theorem perm_sortByTimestamp (l : List Msg) : List.Perm (sortByTimestamp l) l :=
  List.perm_insertionSort msgLE l

theorem nodup_ids_sort {l : List Msg} (h : (l.map Msg.id).Nodup) :
    ((sortByTimestamp l).map Msg.id).Nodup :=
  (((perm_sortByTimestamp l).map Msg.id).nodup_iff).2 h

theorem nodup_ids_filter {g : Graph} (h : (g.messages.map Msg.id).Nodup)
    (p : Msg → Bool) : ((g.messages.filter p).map Msg.id).Nodup :=
  List.Nodup.sublist (List.Sublist.map Msg.id (List.filter_sublist _)) h

theorem dedupAppend_nodup :
    ∀ (new acc : List Msg), (acc.map Msg.id).Nodup →
      (((dedupAppend acc new).map Msg.id).Nodup)
  | [], acc, h => by simpa [dedupAppend] using h
  | m :: rest, acc, h => by
    have hstep :
        (((if acc.any (fun x => x.id == m.id) then acc else acc ++ [m]).map Msg.id).Nodup) := by
      split
      · exact h
      · next hany =>
        have hnm : m.id ∉ acc.map Msg.id := by
          intro hmem
          obtain ⟨x, hx, hxid⟩ := List.mem_map.1 hmem
          exact hany (List.any_eq_true.2 ⟨x, hx, by simp [hxid]⟩)
        simp only [List.map_append, List.map_cons, List.map_nil]
        exact List.Nodup.append h (List.nodup_singleton _)
          (by simpa [List.disjoint_singleton] using hnm)
    have := dedupAppend_nodup rest
      (if acc.any (fun x => x.id == m.id) then acc else acc ++ [m]) hstep
    simpa [dedupAppend, List.foldl_cons] using this

theorem foldl_dedupAppend_nodup {α : Type} (f : α → List Msg) :
    ∀ (l : List α) (acc : List Msg), (acc.map Msg.id).Nodup →
      (((l.foldl (fun a x => dedupAppend a (f x)) acc).map Msg.id).Nodup)
  | [], _acc, h => h
  | x :: rest, acc, h =>
    foldl_dedupAppend_nodup f rest (dedupAppend acc (f x)) (dedupAppend_nodup (f x) acc h)

theorem get_node_messages_only_ok {g : Graph} (h : (g.messages.map Msg.id).Nodup)
    (nid : String) :
    List.Sorted msgLE (get_node_messages_only g nid).messages ∧
      (((get_node_messages_only g nid).messages.map Msg.id).Nodup) := by
  refine ⟨sorted_sortByTimestamp _, ?_⟩
  exact nodup_ids_sort (nodup_ids_filter h _)

theorem ordinaryHistory_ok {g : Graph} (h : (g.messages.map Msg.id).Nodup)
    (nid : String) (inc : Bool) :
    List.Sorted msgLE (ordinaryHistory g nid inc).messages ∧
      (((ordinaryHistory g nid inc).messages.map Msg.id).Nodup) := by
  simp only [ordinaryHistory, fetchMessagesSorted, list_messages]
  split
  · split
    · simp
    · exact ⟨sorted_sortByTimestamp _, nodup_ids_sort (nodup_ids_filter h _)⟩
  · constructor
    · exact List.Pairwise.sublist (List.take_sublist _ _) (sorted_sortByTimestamp _)
    · exact List.Nodup.sublist (List.Sublist.map Msg.id (List.take_sublist _ _))
        (nodup_ids_sort (nodup_ids_filter h _))

theorem referenceCore_ok {g : Graph} (h : (g.messages.map Msg.id).Nodup)
    (nid : String) (src : Option (List String)) (pm : List Msg) :
    List.Sorted msgLE (referenceCore g nid src pm).messages ∧
      (((referenceCore g nid src pm).messages.map Msg.id).Nodup) := by
  simp only [referenceCore]
  split <;> split
  all_goals
    first
    | exact get_node_messages_only_ok h nid
    | · refine ⟨sorted_sortByTimestamp _, nodup_ids_sort ?_⟩
        refine dedupAppend_nodup _ _ ?_
        refine foldl_dedupAppend_nodup _ _ _ ?_
        exact dedupAppend_nodup pm [] (by simp)

theorem takeUntilSummary_snd : ∀ l : List GNode,
    (takeUntilSummary l).2 = l.any isSummaryNode
  | [] => rfl
  | n :: rest => by
    rw [takeUntilSummary]
    by_cases hs : isSummaryNode n = true
    · simp [hs]
    · simp [hs, takeUntilSummary_snd rest, Bool.false_or]

theorem referenceCore_not_summarized (g : Graph) (nid : String)
    (src : Option (List String)) (pm : List Msg) :
    (referenceCore g nid src pm).is_summarized = false := by
  simp only [referenceCore]
  split <;> split
  all_goals simp [get_node_messages_only]

/-! ## Claim C1

Conversation-history assembly: ordering and uniqueness of the returned
message list. -/

/-- C1, counterexample to the claim as stated.  On the snapshot `gTie`, where
two distinct messages of node `A` share a timestamp, the list returned by
`get_conversation_history` is `[mA1, mA2]` with equal timestamps, so it is
not sorted in *strictly* increasing timestamp order (the ids are still
unique; the conjunction of the claim fails on its first conjunct). -/
theorem c1_counterexample :
    ¬ (List.Sorted msgLT (get_conversation_history gTie 1 "A" true).messages ∧
      (((get_conversation_history gTie 1 "A" true).messages.map Msg.id).Nodup)) := by
  decide

/-- C1, amended: for every snapshot, target node and fuel, the returned
message list is sorted by timestamp in *non-decreasing* order, and — provided
the snapshot's message ids are pairwise distinct, as `create_message`'s
UUID generation guarantees — each message id appears at most once.
(Strictness fails exactly when two distinct collected messages share a
timestamp, which nothing in the code prevents.) -/
theorem c1_history_sorted_nodup (g : Graph) (fuel : Nat) (nid : String) (inc : Bool)
    (h : (g.messages.map Msg.id).Nodup) :
    List.Sorted msgLE (get_conversation_history g fuel nid inc).messages ∧
      (((get_conversation_history g fuel nid inc).messages.map Msg.id).Nodup) := by
  cases fuel with
  | zero => simp [get_conversation_history, emptyHistory]
  | succ fuel =>
    rw [get_conversation_history]
    cases hf : findNode g nid with
    | none => exact ordinaryHistory_ok h nid inc
    | some n =>
      by_cases hr : (n.is_reference || n.type == "reference") = true
      · simp only [hr, if_true]
        exact referenceCore_ok h nid n.source_node_ids _
      · simp only [hr, if_false, Bool.false_eq_true]
        exact ordinaryHistory_ok h nid inc

/-- C1, witness: the amended theorem applied to the concrete snapshot
`gTie`. -/
theorem c1_witness :
    ((gTie.messages.map Msg.id).Nodup) ∧
      (List.Sorted msgLE (get_conversation_history gTie 1 "A" true).messages ∧
        (((get_conversation_history gTie 1 "A" true).messages.map Msg.id).Nodup)) :=
  ⟨by decide, c1_history_sorted_nodup gTie 1 "A" true (by decide)⟩

/-! ## Claim C2

`is_summarized` versus halting at a summary ancestor. -/

/-- C2, counterexample to the claim as stated.  On the snapshot `gRef`, the
target `R` is a reference node whose source walk from `S` halts at the
summary ancestor `U` (second conjunct), yet `_get_reference_node_history`
returns the literal `is_summarized = False` (first conjunct), contradicting
the claimed "true iff halted at a summary ancestor". -/
theorem c2_counterexample :
    (get_conversation_history gRef 2 "R" true).is_summarized = false ∧
      (takeUntilSummary (ancestorPathFull gRef "S")).2 = true := by
  decide

/-- C2, amended: for a target that exists in the snapshot, if it is an
ordinary (non-reference) node then `is_summarized` is `true` iff the
root-ward walk meets a summary ancestor, but if it is a reference node then
`is_summarized` is always `false` — the reference path discards the summary
information of its source-node walks and of the recursively assembled parent
history. -/
theorem c2_is_summarized (g : Graph) (fuel : Nat) (nid : String) (n : GNode)
    (hf : findNode g nid = some n) :
    (((n.is_reference || n.type == "reference") = false →
      (get_conversation_history g (fuel + 1) nid true).is_summarized
        = (ancestorPathFull g nid).any isSummaryNode)
    ∧ ((n.is_reference || n.type == "reference") = true →
      (get_conversation_history g (fuel + 1) nid true).is_summarized = false)) := by
  constructor
  · intro hr
    rw [get_conversation_history, hf]
    simp only [hr, Bool.false_eq_true, if_false]
    rw [ordinaryHistory]
    simp [takeUntilSummary_snd]
  · intro hr
    rw [get_conversation_history, hf]
    simp only [hr, if_true]
    exact referenceCore_not_summarized g nid n.source_node_ids _

/-- C2, witness: the amended theorem applied once to the ordinary node `S`
of `gRef` (whose walk halts at the summary node `U`, giving
`is_summarized = true`) and once to the reference node `R` (giving
`false`). -/
theorem c2_witness :
    ((get_conversation_history gRef 1 "S" true).is_summarized
        = (ancestorPathFull gRef "S").any isSummaryNode)
    ∧ ((ancestorPathFull gRef "S").any isSummaryNode = true)
    ∧ ((get_conversation_history gRef 1 "R" true).is_summarized = false) :=
  ⟨(c2_is_summarized gRef 0 "S" nodeMainS (by decide)).1 (by decide),
   by decide,
   (c2_is_summarized gRef 0 "R" nodeRefR (by decide)).2 (by decide)⟩

/-! ## Claims C6 and C7

The recommendation state machine. -/

theorem applyRecOp_branch_iff (r : BranchRec) (op : RecOp) (hok : markOpOk op) :
    ((applyRecOp r op).created_branch_id ≠ none
      ↔ (r.created_branch_id ≠ none ∨ isCreatedOp op = true)) := by
  cases op with
  | created bid now =>
    have hb : (bid == "") = false := by
      simpa using (by simpa [markOpOk] using hok : bid ≠ "")
    simp [applyRecOp, mark_as_created, update_recommendation, isCreatedOp, hb]
  | dismissed now =>
    simp [applyRecOp, mark_as_dismissed, update_recommendation, isDismissedOp, isCreatedOp]
  | upd u now => exact absurd hok (by simp [markOpOk])

theorem applyRecOp_dismissed_iff (r : BranchRec) (op : RecOp) (hok : markOpOk op) :
    ((applyRecOp r op).dismissed_at ≠ none
      ↔ (r.dismissed_at ≠ none ∨ isDismissedOp op = true)) := by
  cases op with
  | created bid now =>
    by_cases hb : (bid == "") = true <;>
      simp [applyRecOp, mark_as_created, update_recommendation, isDismissedOp, hb]
  | dismissed now =>
    simp [applyRecOp, mark_as_dismissed, update_recommendation, isDismissedOp]
  | upd u now => exact absurd hok (by simp [markOpOk])

theorem applyRecOp_status (r : BranchRec) (op : RecOp) (hok : markOpOk op) :
    (applyRecOp r op).status = (if isCreatedOp op then "created" else "dismissed") := by
  cases op with
  | created bid now =>
    by_cases hb : (bid == "") = true <;>
      simp [applyRecOp, mark_as_created, update_recommendation, isCreatedOp, hb]
  | dismissed now =>
    simp [applyRecOp, mark_as_dismissed, update_recommendation, isCreatedOp]
  | upd u now => exact absurd hok (by simp [markOpOk])

theorem foldRec_branch_iff :
    ∀ (l : List RecOp) (r : BranchRec), (∀ op ∈ l, markOpOk op) →
      ((l.foldl applyRecOp r).created_branch_id ≠ none
        ↔ (r.created_branch_id ≠ none ∨ l.any isCreatedOp = true))
  | [], r, _ => by simp
  | op :: rest, r, hok => by
    have h1 := applyRecOp_branch_iff r op (hok op (by simp))
    have h2 := foldRec_branch_iff rest (applyRecOp r op)
      (fun o ho => hok o (by simp [ho]))
    simp only [List.foldl_cons] at *
    rw [h2, h1]
    simp [or_assoc, or_comm, or_left_comm]

theorem foldRec_dismissed_iff :
    ∀ (l : List RecOp) (r : BranchRec), (∀ op ∈ l, markOpOk op) →
      ((l.foldl applyRecOp r).dismissed_at ≠ none
        ↔ (r.dismissed_at ≠ none ∨ l.any isDismissedOp = true))
  | [], r, _ => by simp
  | op :: rest, r, hok => by
    have h1 := applyRecOp_dismissed_iff r op (hok op (by simp))
    have h2 := foldRec_dismissed_iff rest (applyRecOp r op)
      (fun o ho => hok o (by simp [ho]))
    simp only [List.foldl_cons] at *
    rw [h2, h1]
    simp [or_assoc, or_comm, or_left_comm]

theorem foldRec_status (l : List RecOp) (r : BranchRec) (op : RecOp)
    (hok : ∀ o ∈ l, markOpOk o) (hlast : l.getLast? = some op) :
    (l.foldl applyRecOp r).status = (if isCreatedOp op then "created" else "dismissed") := by
  have hsplit : l.dropLast ++ [op] = l := List.dropLast_append_getLast? op hlast
  have hmem : op ∈ l := by
    rw [← hsplit]; exact List.mem_append_right _ (by simp)
  calc (l.foldl applyRecOp r).status
      = ((l.dropLast ++ [op]).foldl applyRecOp r).status := by rw [hsplit]
    _ = (applyRecOp (l.dropLast.foldl applyRecOp r) op).status := by
        simp [List.foldl_append]
    _ = _ := applyRecOp_status _ op (hok op hmem)

/-- C6, counterexample to the claim as stated: the state reached from a
fresh recommendation by `mark_dismissed` then `mark_created` has
`status = created` together with a still-set `dismissed_at`, violating
"`dismissed_at` is set iff `status = dismissed`". -/
theorem c6_counterexample : ¬ recInvariant (applyRecOps opsMixed) := by decide

/-- C6, amended: restricted to the two mark operations (with nonempty branch
ids, as the HTTP layer supplies), the state reached from a fresh
recommendation satisfies the claimed biconditional invariant exactly when
the sequence does not mix `mark_created` and `mark_dismissed`:
`update_recommendation` only ever sets fields, so `created_branch_id`
records whether some `mark_created` ever ran, `dismissed_at` whether some
`mark_dismissed` ever ran, while `status` reflects only the latest
operation.  (Arbitrary `update` payloads can break the invariant even more
directly, e.g. by setting `created_branch_id` alone.) -/
theorem c6_invariant_iff_unmixed (l : List RecOp) (hok : ∀ op ∈ l, markOpOk op) :
    recInvariant (applyRecOps l)
      ↔ (l.all isCreatedOp = true ∨ l.all isDismissedOp = true) := by
  cases hlast : l.getLast? with
  | none =>
    have : l = [] := List.getLast?_eq_none_iff.1 hlast
    subst this
    simp [applyRecOps, recInvariant, new_branch_rec]
  | some op =>
    have hmem : op ∈ l := by
      have hsplit : l.dropLast ++ [op] = l := List.dropLast_append_getLast? op hlast
      rw [← hsplit]; exact List.mem_append_right _ (by simp)
    have hstatus : (applyRecOps l).status
        = (if isCreatedOp op then "created" else "dismissed") :=
      foldRec_status l new_branch_rec op hok hlast
    have hbr : ((applyRecOps l).created_branch_id ≠ none ↔ l.any isCreatedOp = true) := by
      have := foldRec_branch_iff l new_branch_rec hok
      simpa [applyRecOps, new_branch_rec] using this
    have hdis : ((applyRecOps l).dismissed_at ≠ none ↔ l.any isDismissedOp = true) := by
      have := foldRec_dismissed_iff l new_branch_rec hok
      simpa [applyRecOps, new_branch_rec] using this
    have hpoint : ∀ o ∈ l, (isDismissedOp o = false ↔ isCreatedOp o = true) := by
      intro o ho
      have hko := hok o ho
      cases o with
      | created b t => simp [isCreatedOp, isDismissedOp]
      | dismissed t => simp [isCreatedOp, isDismissedOp]
      | upd u t => exact absurd hko (by simp [markOpOk])
    simp only [recInvariant]
    cases hco : isCreatedOp op with
    | true =>
      have hanyC : l.any isCreatedOp = true := List.any_eq_true.2 ⟨op, hmem, hco⟩
      have hallD : l.all isDismissedOp = false := by
        rw [Bool.eq_false_iff]
        intro hall
        have h1 := List.all_eq_true.1 hall op hmem
        have h2 := (hpoint op hmem).2 hco
        simp_all
      have hs1 : (applyRecOps l).status = "created" := by rw [hstatus]; simp [hco]
      have hnotdis : (applyRecOps l).status ≠ "dismissed" := by rw [hs1]; decide
      have hfirst : ((applyRecOps l).status = "created"
          ↔ (applyRecOps l).created_branch_id ≠ none) :=
        iff_of_true hs1 (hbr.2 hanyC)
      constructor
      · rintro ⟨-, h2⟩
        left
        rw [List.all_eq_true]
        intro o ho
        refine (hpoint o ho).1 ?_
        by_contra hd
        rw [Bool.not_eq_false] at hd
        have hdne : (applyRecOps l).dismissed_at ≠ none :=
          hdis.2 (List.any_eq_true.2 ⟨o, ho, hd⟩)
        exact hnotdis (h2.2 hdne)
      · intro hall
        rcases hall with hallC | hallD2
        · refine ⟨hfirst, ?_⟩
          constructor
          · intro h; exact absurd h hnotdis
          · intro hdne
            obtain ⟨o, ho, hd⟩ := List.any_eq_true.1 (hdis.1 hdne)
            have hc := List.all_eq_true.1 hallC o ho
            have hdf := (hpoint o ho).2 hc
            simp_all
        · rw [hallD] at hallD2; exact absurd hallD2 (by decide)
    | false =>
      have hdop : isDismissedOp op = true := by
        by_contra hd
        rw [Bool.not_eq_true] at hd
        have := (hpoint op hmem).1 hd
        simp_all
      have hanyD : l.any isDismissedOp = true := List.any_eq_true.2 ⟨op, hmem, hdop⟩
      have hallC : l.all isCreatedOp = false := by
        rw [Bool.eq_false_iff]
        intro hall
        have := List.all_eq_true.1 hall op hmem
        simp_all
      have hs1 : (applyRecOps l).status = "dismissed" := by rw [hstatus]; simp [hco]
      have hnotcre : (applyRecOps l).status ≠ "created" := by rw [hs1]; decide
      have hsecond : ((applyRecOps l).status = "dismissed"
          ↔ (applyRecOps l).dismissed_at ≠ none) :=
        iff_of_true hs1 (hdis.2 hanyD)
      constructor
      · rintro ⟨h1, -⟩
        right
        rw [List.all_eq_true]
        intro o ho
        by_contra hd
        rw [Bool.not_eq_true] at hd
        have hc := (hpoint o ho).1 hd
        have hbne : (applyRecOps l).created_branch_id ≠ none :=
          hbr.2 (List.any_eq_true.2 ⟨o, ho, hc⟩)
        exact hnotcre (h1.2 hbne)
      · intro hall
        rcases hall with hallC2 | hallD2
        · rw [hallC] at hallC2; exact absurd hallC2 (by decide)
        · refine ⟨?_, hsecond⟩
          constructor
          · intro h; exact absurd h hnotcre
          · intro hbne
            obtain ⟨o, ho, hc⟩ := List.any_eq_true.1 (hbr.1 hbne)
            have hd := List.all_eq_true.1 hallD2 o ho
            have hdf := (hpoint o ho).2 hc
            simp_all

/-- C6, witness: the amended theorem applied to the unmixed sequence
`opsCreatedOnly`. -/
theorem c6_witness :
    (∀ op ∈ opsCreatedOnly, markOpOk op) ∧
      (recInvariant (applyRecOps opsCreatedOnly)
        ↔ (opsCreatedOnly.all isCreatedOp = true ∨ opsCreatedOnly.all isDismissedOp = true)) :=
  ⟨by decide, c6_invariant_iff_unmixed opsCreatedOnly (by decide)⟩

/-- C7, counterexample to the claim as stated: dismissing the same fresh
recommendation at times 1 and then 2 leaves `dismissed_at = 2`, not the
earliest time 1 — the second call overwrites the timestamp because
`update_recommendation` applies any truthy `dismissed_at` payload. -/
theorem c7_counterexample :
    (mark_as_dismissed (mark_as_dismissed new_branch_rec 1) 2).status = "dismissed" ∧
      (mark_as_dismissed (mark_as_dismissed new_branch_rec 1) 2).dismissed_at ≠ some 1 := by
  decide

/-- C7, amended: calling `mark_as_dismissed` twice leaves
`status = dismissed` and `dismissed_at` equal to the time of the *latest*
call (`created_branch_id` is untouched). -/
theorem c7_double_dismiss (r : BranchRec) (t1 t2 : Nat) :
    (mark_as_dismissed (mark_as_dismissed r t1) t2).status = "dismissed" ∧
      (mark_as_dismissed (mark_as_dismissed r t1) t2).dismissed_at = some t2 ∧
      (mark_as_dismissed (mark_as_dismissed r t1) t2).created_branch_id
        = r.created_branch_id := by
  simp [mark_as_dismissed, update_recommendation]

/-! ## Claim C8

A failing user-message persist at the start of a chat turn. -/

/-- C8, counterexample to the claim as stated: with the user-message persist
failing, the non-streaming path still broadcasts a `chat_response` event (the
claim asserted no events and an error surfaced to the caller). -/
theorem c8_counterexample :
    (handleNonStreamChat gLeaf "s" "A" "hi" true cfgPersistFail "st" none).1 =
        [WSEvent.chatResponse (fallbackChatResult "A")] ∧
      (handleNonStreamChat gLeaf "s" "A" "hi" true cfgPersistFail "st" none).1 ≠ [] := by
  decide

/-- C8, amended: if persisting the user message fails, `process_chat`
catches the exception and returns a normal-looking fallback
`ChatProcessResult` (apology text, no message id, no recommendations)
without touching the store, and the non-streaming websocket path broadcasts
a `chat_response` event carrying that fallback; in the streaming path (for a
leaf target) the failure aborts the turn before any stream event — only an
error frame is sent and nothing is persisted. -/
theorem c8_persist_failure (g : Graph) (sid nid txt st : String) (ab : Bool)
    (cfg : ChatCfg) (llm : Option String)
    (hfail : cfg.persistUserFails = true) :
    process_chat g nid txt ab cfg st llm = (fallbackChatResult nid, g)
    ∧ handleNonStreamChat g sid nid txt ab cfg st llm
        = ([.chatResponse (fallbackChatResult nid)], g)
    ∧ (has_children g nid = false →
        handleStreamChat g sid nid txt ab cfg = ([.wsError "메시지 저장 실패"], g)) := by
  refine ⟨?_, ?_, ?_⟩
  · simp [process_chat, hfail]
  · simp [handleNonStreamChat, process_chat, hfail]
  · intro hkids
    simp [handleStreamChat, autoRefPhase, hkids, hfail]

/-- C8, witness: the amended theorem applied to the leaf snapshot `gLeaf`
with a failing persist. -/
theorem c8_witness :
    cfgPersistFail.persistUserFails = true ∧
      (process_chat gLeaf "A" "hi" true cfgPersistFail "st" none
          = (fallbackChatResult "A", gLeaf)
        ∧ handleNonStreamChat gLeaf "s" "A" "hi" true cfgPersistFail "st" none
            = ([.chatResponse (fallbackChatResult "A")], gLeaf)
        ∧ (has_children gLeaf "A" = false →
            handleStreamChat gLeaf "s" "A" "hi" true cfgPersistFail
              = ([.wsError "메시지 저장 실패"], gLeaf))) :=
  ⟨by decide, c8_persist_failure gLeaf "s" "A" "hi" "st" true cfgPersistFail none (by decide)⟩

/-! ## Claims C3 and C4

The streaming chat pipeline. -/

theorem find?_map_id_preserving (f : GNode → GNode) (hid : ∀ n, (f n).id = n.id) :
    ∀ (l : List GNode) (x : String),
      ((l.map f).find? (fun n => n.id == x)) = ((l.find? (fun n => n.id == x)).map f)
  | [], _ => rfl
  | n :: rest, x => by
    by_cases hx : (n.id == x) = true
    · simp [List.find?_cons, hid n, hx]
    · simp [List.find?_cons, hid n, hx, find?_map_id_preserving f hid rest x]

theorem findNode_eq_of_mem_id (g : Graph) (x : String) (n : GNode)
    (h : findNode g x = some n) : n.id = x := by
  have := List.find?_some h
  simpa using this

theorem findNode_storeSummaryContent_ne (g : Graph) (nid s x : String) (hx : x ≠ nid) :
    findNode (storeSummaryContent g nid s) x = findNode g x := by
  unfold findNode storeSummaryContent
  rw [find?_map_id_preserving _ (fun n => by by_cases h : (n.id == nid) = true <;> simp [h])]
  cases hf : g.nodes.find? (fun n => n.id == x) with
  | none => rfl
  | some n =>
    have hnid : n.id = x := by simpa using List.find?_some hf
    simp [hnid, hx]

theorem findNode_update_node_metadata_ne (g : Graph) (nid : String) (m : Mdata)
    (x : String) (hx : x ≠ nid) :
    findNode (update_node_metadata g nid m) x = findNode g x := by
  unfold findNode update_node_metadata
  rw [find?_map_id_preserving _ (fun n => by by_cases h : (n.id == nid) = true <;> simp [h])]
  cases hf : g.nodes.find? (fun n => n.id == x) with
  | none => rfl
  | some n =>
    have hnid : n.id = x := by simpa using List.find?_some hf
    simp [hnid, hx]

theorem messages_storeSummaryContent (g : Graph) (nid s : String) :
    (storeSummaryContent g nid s).messages = g.messages := rfl

theorem messages_update_node_metadata (g : Graph) (nid : String) (m : Mdata) :
    (update_node_metadata g nid m).messages = g.messages := rfl

theorem generate_parent_summary_preserves (g : Graph) (pid : String)
    (pso : Option String) (x : String) (hx : x ≠ pid) :
    findNode (generate_parent_summary_if_needed g pid pso) x = findNode g x
    ∧ (generate_parent_summary_if_needed g pid pso).messages = g.messages := by
  simp only [generate_parent_summary_if_needed]
  cases hp : findNode g pid with
  | none => exact ⟨rfl, rfl⟩
  | some p =>
    by_cases h1 : p.summary_content.isSome = true
    · simp only [h1, if_true]
      constructor <;> first | rfl | trivial
    · simp only [h1, if_false, Bool.false_eq_true]
      by_cases h2 : (list_messages g pid).length < 2
      · simp only [h2, if_true]
        constructor <;> first | rfl | trivial
      · simp only [h2, if_false]
        cases pso with
        | none => exact ⟨rfl, rfl⟩
        | some s => exact ⟨findNode_storeSummaryContent_ne g pid _ x hx, rfl⟩

theorem generate_node_summary_preserves (g : Graph) (nid : String)
    (oracle : Option String) (x : String) (hx : x ≠ nid) :
    findNode (generate_node_summary_if_needed g nid oracle).1 x = findNode g x
    ∧ (generate_node_summary_if_needed g nid oracle).1.messages = g.messages := by
  simp only [generate_node_summary_if_needed]
  by_cases h1 : (list_messages g nid).length < 2
  · simp only [h1, if_true]
    constructor <;> first | rfl | trivial
  · simp only [h1, if_false]
    cases oracle with
    | none => constructor <;> rfl
    | some s =>
      cases hg : get_node g nid with
      | none =>
        simp only [hg]
        constructor <;> first | rfl | trivial
      | some v =>
        simp only [hg]
        exact ⟨findNode_update_node_metadata_ne _ nid _ x hx, rfl⟩

theorem findNode_append_fresh (g : Graph) (n : GNode)
    (hfresh : g.nodes.any (fun m => m.id == n.id) = false) :
    (List.find? (fun m => m.id == n.id) (g.nodes ++ [n])) = some n := by
  rw [List.find?_append]
  have h1 : g.nodes.find? (fun m => m.id == n.id) = none := by
    rw [List.find?_eq_none]
    intro x hx hbeq
    rw [Bool.eq_false_iff] at hfresh
    exact hfresh (List.any_eq_true.2 ⟨x, hx, hbeq⟩)
  simp [h1]

/-- The auto-reference phase on a target that has children, exists, and
lives in an existing session: it emits `creating_reference_node` then
`reference_node_created` first, persists exactly the reference record (type
`reference`, parented to the target, *no* `source_node_ids`), leaves the
message store untouched, and switches the working node to the new id. -/
theorem autoRefPhase_spec (g : Graph) (sid nid : String) (cfg : ChatCfg)
    (pv : NodeView)
    (hkids : has_children g nid = true)
    (hview : get_node g nid = some pv)
    (hsess : g.sessions.contains pv.session_id = true)
    (hfresh : g.nodes.any (fun m => m.id == cfg.refNodeId) = false) :
    ∃ tail gR,
      autoRefPhase g sid nid cfg
        = (WSEvent.creatingReferenceNode nid
            :: WSEvent.referenceNodeCreated nid cfg.refNodeId "대화 계속" :: tail,
           gR, some cfg.refNodeId)
      ∧ findNode gR cfg.refNodeId = some (referenceNodeRecord nid cfg pv)
      ∧ gR.messages = g.messages := by
  obtain ⟨np, hnp⟩ : ∃ np, findNode g nid = some np := by
    unfold get_node at hview
    cases hf : findNode g nid with
    | none => rw [hf] at hview; exact absurd hview (by simp)
    | some np => exact ⟨np, rfl⟩
  have hparent_any : g.nodes.any (fun p => p.id == nid) = true := by
    have hmem := List.mem_of_find?_eq_some hnp
    have hp := List.find?_some hnp
    exact List.any_eq_true.2 ⟨np, hmem, hp⟩
  have hne : cfg.refNodeId ≠ nid := by
    intro h
    rw [Bool.eq_false_iff] at hfresh
    apply hfresh
    refine List.any_eq_true.2 ⟨np, List.mem_of_find?_eq_some hnp, ?_⟩
    have : np.id = nid := by simpa using List.find?_some hnp
    simp [this, h]
  -- the graph right after the CREATE
  have hcreate : create_node g pv.session_id
      { title := "대화 계속: " ++ pv.title, type := "reference", metadata := [],
        parent_id := some nid, content := some "", is_summary := false,
        summary_content := none } cfg.refNodeId cfg.parentSummaryOracle
      = (generate_parent_summary_if_needed
          { g with nodes := g.nodes ++ [referenceNodeRecord nid cfg pv] }
          nid cfg.parentSummaryOracle,
         some (referenceNodeRecord nid cfg pv)) := by
    simp only [create_node, hview, hsess, hparent_any, Bool.and_self, if_true]
    rfl
  have hfreshR : ({ g with nodes := g.nodes ++ [referenceNodeRecord nid cfg pv] } :
      Graph).nodes = g.nodes ++ [referenceNodeRecord nid cfg pv] := rfl
  have hfindR : findNode
      (generate_parent_summary_if_needed
        { g with nodes := g.nodes ++ [referenceNodeRecord nid cfg pv] }
        nid cfg.parentSummaryOracle) cfg.refNodeId
      = some (referenceNodeRecord nid cfg pv) := by
    rw [(generate_parent_summary_preserves _ nid _ _ hne).1]
    show List.find? _ (g.nodes ++ [referenceNodeRecord nid cfg pv]) = _
    have : (fun m : GNode => m.id == cfg.refNodeId)
        = (fun m : GNode => m.id == (referenceNodeRecord nid cfg pv).id) := rfl
    rw [this]
    exact findNode_append_fresh g _ (by simpa [referenceNodeRecord] using hfresh)
  have hmsgsR : (generate_parent_summary_if_needed
      { g with nodes := g.nodes ++ [referenceNodeRecord nid cfg pv] }
      nid cfg.parentSummaryOracle).messages = g.messages := by
    rw [(generate_parent_summary_preserves _ nid _ _ hne).2]
  simp only [autoRefPhase, hkids, if_true, hview, hcreate]
  by_cases hj : jtruthy (getKey pv.metadata "summary") = true
  · simp only [hj, if_true]
    exact ⟨[], _, rfl, hfindR, hmsgsR⟩
  · rw [if_neg hj]
    cases hgen : generate_node_summary_if_needed
        (generate_parent_summary_if_needed
          { g with nodes := g.nodes ++ [referenceNodeRecord nid cfg pv] }
          nid cfg.parentSummaryOracle) nid cfg.summaryOracle with
    | mk g2 res =>
      have hpres := generate_node_summary_preserves
        (generate_parent_summary_if_needed
          { g with nodes := g.nodes ++ [referenceNodeRecord nid cfg pv] }
          nid cfg.parentSummaryOracle) nid cfg.summaryOracle cfg.refNodeId hne
      rw [hgen] at hpres
      cases res with
      | some s =>
        refine ⟨[.generatingSummary nid, .summaryGenerated nid], g2, rfl, ?_, ?_⟩
        · have h1 := hpres.1
          simp only at h1
          rw [h1]; exact hfindR
        · have h2 := hpres.2
          simp only at h2
          rw [h2]; exact hmsgsR
      | none =>
        refine ⟨[.generatingSummary nid], g2, rfl, ?_, ?_⟩
        · have h1 := hpres.1
          simp only at h1
          rw [h1]; exact hfindR
        · have h2 := hpres.2
          simp only at h2
          rw [h2]; exact hmsgsR

/-- C3, counterexample to the claim as stated.  Running the streaming chat
pipeline on `gParent` (target `A` has child `B`) creates the reference node
`R`, but its `source_node_ids` is null — `NodeService.create_node`'s CREATE
query stores no `source_node_ids` property and `NodeCreate` has no such
field — so the claimed `source_node_ids = [target id]` is false. -/
theorem c3_counterexample :
    ((findNode (handleStreamChat gParent "s" "A" "hi" false cfgStream).2 "R").map
        GNode.source_node_ids = some none)
    ∧ ¬ ((findNode (handleStreamChat gParent "s" "A" "hi" false cfgStream).2 "R").map
        GNode.source_node_ids = some (some ["A"])) := by
  decide

/-- C3, amended: in the streaming chat path, whenever the target node has at
least one child (and exists in an existing session, with a fresh id for the
new node and a successful user-message persist), the pipeline creates a new
node of type `reference`, parented to the target node, with *no*
`source_node_ids` recorded (the link to the source is carried only by
`parent_id`), emits `creating_reference_node` and `reference_node_created`
as the very first two events — in particular before the first
`stream_chunk` — and attaches both of the turn's messages to the new
reference node. -/
theorem c3_auto_reference (g : Graph) (sid nid txt : String) (ab : Bool)
    (cfg : ChatCfg) (pv : NodeView)
    (hkids : has_children g nid = true)
    (hview : get_node g nid = some pv)
    (hsess : g.sessions.contains pv.session_id = true)
    (hfresh : g.nodes.any (fun m => m.id == cfg.refNodeId) = false)
    (hpersist : cfg.persistUserFails = false) :
    (∃ rest, (handleStreamChat g sid nid txt ab cfg).1
        = WSEvent.creatingReferenceNode nid
          :: WSEvent.referenceNodeCreated nid cfg.refNodeId "대화 계속" :: rest)
    ∧ (findNode (handleStreamChat g sid nid txt ab cfg).2 cfg.refNodeId
        = some (referenceNodeRecord nid cfg pv))
    ∧ (Msg.mk cfg.userMsgId cfg.refNodeId "user" txt cfg.tUser
        ∈ (handleStreamChat g sid nid txt ab cfg).2.messages)
    ∧ (Msg.mk cfg.aiMsgId cfg.refNodeId "assistant"
          (String.join (effectiveChunks cfg)) cfg.tAi
        ∈ (handleStreamChat g sid nid txt ab cfg).2.messages) := by
  obtain ⟨tail, gR, hphase, hfind, hmsgs⟩ :=
    autoRefPhase_spec g sid nid cfg pv hkids hview hsess hfresh
  simp only [handleStreamChat, hphase, hpersist, Bool.false_eq_true, if_false]
  refine ⟨⟨tail ++ ([.streamStart cfg.refNodeId cfg.userMsgId]
      ++ (effectiveChunks cfg).map (WSEvent.streamChunk cfg.refNodeId)
      ++ [.streamEnd cfg.refNodeId cfg.aiMsgId (String.join (effectiveChunks cfg))
            (if ab then cfg.branches else [])]), by simp⟩, ?_, ?_, ?_⟩
  · show findNode (if ab && !cfg.branches.isEmpty then _ else _) cfg.refNodeId = _
    split <;> exact hfind
  · show Msg.mk cfg.userMsgId cfg.refNodeId "user" txt cfg.tUser
      ∈ (if ab && !cfg.branches.isEmpty then _ else _ : Graph).messages
    split <;> simp [create_recommendations_batch]
  · show Msg.mk cfg.aiMsgId cfg.refNodeId "assistant"
        (String.join (effectiveChunks cfg)) cfg.tAi
      ∈ (if ab && !cfg.branches.isEmpty then _ else _ : Graph).messages
    split <;> simp [create_recommendations_batch]

/-- C3, witness: the amended theorem applied to the snapshot `gParent`. -/
theorem c3_witness :
    (has_children gParent "A" = true
      ∧ gParent.sessions.contains "s" = true
      ∧ cfgStream.persistUserFails = false)
    ∧ ((∃ rest, (handleStreamChat gParent "s" "A" "hi" false cfgStream).1
          = WSEvent.creatingReferenceNode "A"
            :: WSEvent.referenceNodeCreated "A" cfgStream.refNodeId "대화 계속" :: rest)
      ∧ (findNode (handleStreamChat gParent "s" "A" "hi" false cfgStream).2
            cfgStream.refNodeId
          = some (referenceNodeRecord "A" cfgStream pvA))
      ∧ (Msg.mk cfgStream.userMsgId cfgStream.refNodeId "user" "hi" cfgStream.tUser
          ∈ (handleStreamChat gParent "s" "A" "hi" false cfgStream).2.messages)
      ∧ (Msg.mk cfgStream.aiMsgId cfgStream.refNodeId "assistant"
            (String.join (effectiveChunks cfgStream)) cfgStream.tAi
          ∈ (handleStreamChat gParent "s" "A" "hi" false cfgStream).2.messages)) :=
  ⟨⟨by decide, by decide, by decide⟩,
    c3_auto_reference gParent "s" "A" "hi" false cfgStream pvA
      (by decide) (by decide) (by decide) (by decide) (by decide)⟩

theorem string_join_concat (l : List String) (s : String) :
    String.join (l ++ [s]) = String.join l ++ s := by
  simp [String.join, List.foldl_append]

theorem getLast?_of_eq_concat {α : Type} (l l2 : List α) (e : α)
    (h : l = l2 ++ [e]) : l.getLast? = some e := by
  rw [h]; exact List.getLast?_concat _

/-- C4, counterexample to the claim as stated.  With the LLM stream failing
mid-way on the leaf snapshot `gLeaf` (`cfgStreamFail`), an assistant message
*is* persisted, containing the accumulated partial text plus the fixed
error-text chunk, and the turn ends with an ordinary `stream_end` whose
`full_response` carries that text rather than an error payload. -/
theorem c4_counterexample :
    (Msg.mk "a1" "A" "assistant" ("hello" ++ streamErrText) 11
        ∈ (handleStreamChat gLeaf "s" "A" "hi" false cfgStreamFail).2.messages)
    ∧ ((handleStreamChat gLeaf "s" "A" "hi" false cfgStreamFail).1.getLast?
        = some (.streamEnd "A" "a1" ("hello" ++ streamErrText) [])) := by
  decide

/-- C4, amended: if the LLM stream fails mid-way during a streaming chat
turn, `stream_chat` swallows the exception and yields one fixed error-text
chunk after the partial chunks; the pipeline then persists an assistant
message whose content is the accumulated partial text followed by that
error text, and emits a normal `stream_end` (not an error payload) carrying
the same text as `full_response`. -/
theorem c4_stream_failure (g : Graph) (sid nid txt : String) (ab : Bool)
    (cfg : ChatCfg)
    (hfail : cfg.llmFails = true)
    (hpersist : cfg.persistUserFails = false)
    (href : has_children g nid = true →
      ∃ pv, get_node g nid = some pv ∧ g.sessions.contains pv.session_id = true
        ∧ g.nodes.any (fun m => m.id == cfg.refNodeId) = false) :
    ((handleStreamChat g sid nid txt ab cfg).1.getLast?
        = some (.streamEnd (if has_children g nid then cfg.refNodeId else nid)
            cfg.aiMsgId (String.join cfg.llmChunks ++ streamErrText)
            (if ab then cfg.branches else [])))
    ∧ (Msg.mk cfg.aiMsgId (if has_children g nid then cfg.refNodeId else nid)
          "assistant" (String.join cfg.llmChunks ++ streamErrText) cfg.tAi
        ∈ (handleStreamChat g sid nid txt ab cfg).2.messages) := by
  have hjoin : String.join (effectiveChunks cfg)
      = String.join cfg.llmChunks ++ streamErrText := by
    simp [effectiveChunks, hfail, string_join_concat]
  by_cases hk : has_children g nid = true
  · obtain ⟨pv, hview, hsess, hfresh⟩ := href hk
    obtain ⟨tail, gR, hphase, hfind, hmsgs⟩ :=
      autoRefPhase_spec g sid nid cfg pv hk hview hsess hfresh
    rw [← hjoin]
    simp only [handleStreamChat, hphase, hpersist, Bool.false_eq_true, if_false,
      hk, if_true]
    constructor
    · exact getLast?_of_eq_concat _
        (WSEvent.creatingReferenceNode nid
          :: WSEvent.referenceNodeCreated nid cfg.refNodeId "대화 계속"
          :: (tail ++ WSEvent.streamStart cfg.refNodeId cfg.userMsgId
            :: (effectiveChunks cfg).map (WSEvent.streamChunk cfg.refNodeId))) _
        (by simp)
    · show Msg.mk cfg.aiMsgId cfg.refNodeId "assistant"
          (String.join (effectiveChunks cfg)) cfg.tAi
        ∈ (if ab && !cfg.branches.isEmpty then _ else _ : Graph).messages
      split <;> simp [create_recommendations_batch]
  · have hk2 : has_children g nid = false := by
      rwa [Bool.not_eq_true] at hk
    rw [← hjoin]
    simp only [handleStreamChat, autoRefPhase, hk2, Bool.false_eq_true, if_false,
      hpersist]
    constructor
    · exact getLast?_of_eq_concat _
        (WSEvent.streamStart nid cfg.userMsgId
          :: (effectiveChunks cfg).map (WSEvent.streamChunk nid)) _
        (by simp)
    · show Msg.mk cfg.aiMsgId nid "assistant"
          (String.join (effectiveChunks cfg)) cfg.tAi
        ∈ (if ab && !cfg.branches.isEmpty then _ else _ : Graph).messages
      split <;> simp [create_recommendations_batch]

/-- C4, witness: the amended theorem applied to the leaf snapshot `gLeaf`
with a failing stream. -/
theorem c4_witness :
    (cfgStreamFail.llmFails = true ∧ cfgStreamFail.persistUserFails = false)
    ∧ (((handleStreamChat gLeaf "s" "A" "hi" false cfgStreamFail).1.getLast?
        = some (.streamEnd (if has_children gLeaf "A" then cfgStreamFail.refNodeId else "A")
            cfgStreamFail.aiMsgId
            (String.join cfgStreamFail.llmChunks ++ streamErrText)
            (if false then cfgStreamFail.branches else [])))
      ∧ (Msg.mk cfgStreamFail.aiMsgId
            (if has_children gLeaf "A" then cfgStreamFail.refNodeId else "A")
            "assistant" (String.join cfgStreamFail.llmChunks ++ streamErrText)
            cfgStreamFail.tAi
          ∈ (handleStreamChat gLeaf "s" "A" "hi" false cfgStreamFail).2.messages)) :=
  ⟨⟨by decide, by decide⟩,
    c4_stream_failure gLeaf "s" "A" "hi" false cfgStreamFail (by decide) (by decide)
      (fun h => absurd h (by decide))⟩

/-! ## Claim C5

The token-budget check of `process_chat`. -/

theorem filterCurrentHeavy_parent :
    histCurrentHeavy.filter (fun m => m.node_id != "c") = [] := by
  rw [histCurrentHeavy, List.filter_replicate, if_neg (by decide)]

theorem filterCurrentHeavy_current :
    histCurrentHeavy.filter (fun m => m.node_id == "c") = List.replicate 2700 msgCurX := by
  rw [histCurrentHeavy, List.filter_replicate, if_pos (by decide)]

theorem trigCurrentHeavy : 8000 < chat_token_estimate_x2 histCurrentHeavy "hi" := by
  have h1 : wordCount "x" = 1 := by decide
  have h2 : wordCount "hi" = 1 := by decide
  rw [chat_token_estimate_x2, sumWords, histCurrentHeavy, List.map_replicate,
    List.sum_replicate, h2]
  show 8000 < 3 * (2700 • wordCount msgCurX.content + 1)
  rw [show msgCurX.content = "x" from rfl, h1, smul_eq_mul]
  norm_num

/-- C5, counterexample to the claim as stated.  On a history whose 2700
one-word messages all live on the current node `c`, the token estimate
exceeds `TOKEN_LIMIT = 4000`, yet the message list handed to the LLM
contains no synthesised summary message at all: the parent portion is empty,
so `process_chat` never calls the summariser. -/
theorem c5_counterexample :
    8000 < chat_token_estimate_x2 histCurrentHeavy "hi"
    ∧ AIMsg.mk "system" ("이전 대화 요약: " ++ "S")
        ∉ process_chat_llm_input histCurrentHeavy "c" "hi" "S" := by
  refine ⟨trigCurrentHeavy, ?_⟩
  intro hmem
  simp only [process_chat_llm_input] at hmem
  rw [if_pos trigCurrentHeavy, filterCurrentHeavy_parent,
    filterCurrentHeavy_current] at hmem
  rw [if_pos (show (List.isEmpty ([] : List Msg)) = true from rfl)] at hmem
  simp only [prepare_messages] at hmem
  rw [List.map_replicate, List.length_cons, List.length_replicate] at hmem
  rw [if_pos (by norm_num)] at hmem
  rcases List.mem_append.1 hmem with h | h
  · rcases List.mem_cons.1 h with h2 | h2
    · exact absurd h2 (by decide)
    · have h3 := List.mem_of_mem_drop h2
      rcases List.mem_cons.1 h3 with h4 | h4
      · exact absurd h4 (by decide)
      · exact absurd (List.mem_replicate.1 h4).2 (by decide)
  · rw [List.mem_singleton] at h
    exact absurd h (by decide)

/-- C5, amended: during a chat turn, if the estimated token total (history
plus the new user message) exceeds `TOKEN_LIMIT = 4000` *and* the
parent-node portion of the history is nonempty *and* the current node
carries at most 19 messages (so the final 21-entry truncation of
`_prepare_messages` does not fire), then the list handed to the LLM is the
fixed system instruction, exactly one synthesised system summary message,
the current node's messages, and the new user message.  With an empty
parent portion no summary message is synthesised, and with 20 or more
current-node messages the truncation drops the summary message. -/
theorem c5_token_budget (history : List Msg) (target userText summaryText : String)
    (htrig : 8000 < chat_token_estimate_x2 history userText)
    (hpar : (history.filter (fun m => m.node_id != target)) ≠ [])
    (hcur : (history.filter (fun m => m.node_id == target)).length ≤ 19) :
    process_chat_llm_input history target userText summaryText
      = system_instruction
        :: AIMsg.mk "system" ("이전 대화 요약: " ++ summaryText)
        :: ((history.filter (fun m => m.node_id == target)).map
              (fun m => AIMsg.mk m.role m.content)
          ++ [AIMsg.mk "user" userText]) := by
  have hparF : (history.filter (fun m => m.node_id != target)).isEmpty = false := by
    rw [List.isEmpty_eq_false]
    exact hpar
  simp only [process_chat_llm_input]
  rw [if_pos htrig, hparF]
  simp only [Bool.false_eq_true, if_false, prepare_messages, List.map_cons,
    List.length_cons, List.length_map]
  rw [if_neg (by omega)]
  simp [summary_system_message]

theorem filterParentHeavy_parent :
    histParentHeavy.filter (fun m => m.node_id != "c")
      = List.replicate 2700 msgParentW := by
  have hsingle : List.filter (fun m : Msg => m.node_id != "c") [msgCurX] = [] := by
    decide
  rw [histParentHeavy, List.filter_append, List.filter_replicate, hsingle,
    if_pos (by decide), List.append_nil]

theorem filterParentHeavy_current :
    histParentHeavy.filter (fun m => m.node_id == "c") = [msgCurX] := by
  have hsingle : List.filter (fun m : Msg => m.node_id == "c") [msgCurX]
      = [msgCurX] := by decide
  rw [histParentHeavy, List.filter_append, List.filter_replicate, hsingle,
    if_neg (by decide), List.nil_append]

/-- C5, witness: the amended theorem applied to `histParentHeavy`, whose
2700 one-word messages live on the parent node `p` and whose single current
message lives on `c`. -/
theorem c5_witness :
    (8000 < chat_token_estimate_x2 histParentHeavy "hi"
      ∧ (histParentHeavy.filter (fun m => m.node_id != "c")) ≠ []
      ∧ (histParentHeavy.filter (fun m => m.node_id == "c")).length ≤ 19)
    ∧ process_chat_llm_input histParentHeavy "c" "hi" "S"
      = system_instruction
        :: AIMsg.mk "system" ("이전 대화 요약: " ++ "S")
        :: ((histParentHeavy.filter (fun m => m.node_id == "c")).map
              (fun m => AIMsg.mk m.role m.content)
          ++ [AIMsg.mk "user" "hi"]) := by
  have h1 : wordCount "w" = 1 := by decide
  have h2 : wordCount "x" = 1 := by decide
  have h3 : wordCount "hi" = 1 := by decide
  have htrig : 8000 < chat_token_estimate_x2 histParentHeavy "hi" := by
    rw [chat_token_estimate_x2, sumWords, histParentHeavy, List.map_append,
      List.map_replicate, List.sum_append, List.sum_replicate, h3]
    show 8000 < 3 * (2700 • wordCount msgParentW.content
      + (List.map (fun m => wordCount m.content) [msgCurX]).sum + 1)
    rw [show msgParentW.content = "w" from rfl, List.map_cons, List.map_nil,
      List.sum_cons, List.sum_nil, show msgCurX.content = "x" from rfl, h1, h2,
      smul_eq_mul]
    norm_num
  have hpar : (histParentHeavy.filter (fun m => m.node_id != "c")) ≠ [] := by
    rw [filterParentHeavy_parent]
    intro h
    have hlen := congrArg List.length h
    rw [List.length_replicate, List.length_nil] at hlen
    exact absurd hlen (by decide)
  have hcur : (histParentHeavy.filter (fun m => m.node_id == "c")).length ≤ 19 := by
    rw [filterParentHeavy_current]
    decide
  exact ⟨⟨htrig, hpar, hcur⟩, c5_token_budget histParentHeavy "c" "hi" "S" htrig hpar hcur⟩

/-! ## Claim C9

Metadata round-trip through node create/update and `get_node`. -/

/-- C9, counterexample to the claim as stated: creating a node with
metadata `{"a": "1"}` and reading it back yields
`{"a": "1", "message_count": 0}` — `get_node` injects (and would overwrite)
a `message_count` key, so the round-trip is not the identity. -/
theorem c9_counterexample :
    ((get_node (create_node gEmptySession "s" ncMeta "N" none).1 "N").map
        NodeView.metadata = some [("a", JVal.jstr "1"), ("message_count", JVal.jnum 0)])
    ∧ ¬ ((get_node (create_node gEmptySession "s" ncMeta "N" none).1 "N").map
        NodeView.metadata = some [("a", JVal.jstr "1")]) := by
  decide

/-- C9, amended: serialising `metadata` to storage on node create (here: a
parentless create with a fresh id) or update and reading the node back with
`get_node` yields the written map with exactly one modification: the key
`"message_count"` is set (added, or overwritten if present) to the node's
current `HAS_MESSAGE` count; every other key and value is preserved in
order. -/
theorem c9_metadata_roundtrip (g : Graph) (sid : String) (nc : NodeCreate)
    (newId : String) (pso : Option String) (m : Mdata) (nid2 : String) (n2 : GNode)
    (hparent : nc.parent_id = none)
    (hfresh : g.nodes.any (fun n => n.id == newId) = false)
    (hnomsg : g.messages.filter (fun mm => mm.node_id == newId) = [])
    (hfind : findNode g nid2 = some n2) :
    ((get_node (create_node g sid nc newId pso).1 newId).map NodeView.metadata
        = some (setKey nc.metadata "message_count" (.jnum 0)))
    ∧ ((get_node (update_node_metadata g nid2 m) nid2).map NodeView.metadata
        = some (setKey m "message_count"
            (.jnum ((g.messages.filter (fun mm => mm.node_id == nid2)).length)))) := by
  constructor
  · have hnodes : (create_node g sid nc newId pso).1.nodes
        = g.nodes ++ [createdNodeRecord sid nc newId 0] := by
      simp only [create_node, hparent]
      split <;> simp [createdNodeRecord, hparent]
    have hmessages : (create_node g sid nc newId pso).1.messages = g.messages := by
      simp only [create_node, hparent]
      split <;> rfl
    have hfound : findNode (create_node g sid nc newId pso).1 newId
        = some (createdNodeRecord sid nc newId 0) := by
      unfold findNode
      rw [hnodes]
      exact findNode_append_fresh g (createdNodeRecord sid nc newId 0)
        (by simpa [createdNodeRecord] using hfresh)
    simp only [get_node, hfound, hmessages, hnomsg, Option.map_some]
    rfl
  · have hn2 : n2.id = nid2 := findNode_eq_of_mem_id g nid2 n2 hfind
    have hfound : findNode (update_node_metadata g nid2 m) nid2
        = some { n2 with metadataStored := some m } := by
      unfold findNode update_node_metadata
      rw [find?_map_id_preserving _
        (fun n => by by_cases h : (n.id == nid2) = true <;> simp [h])]
      show ((findNode g nid2).map _) = _
      rw [hfind]
      simp [hn2]
    have hmessages : (update_node_metadata g nid2 m).messages = g.messages := rfl
    simp only [get_node, hfound, hmessages, Option.map_some]
    rfl

/-- C9, witness: the amended theorem applied to `gLeaf` — a fresh create
with metadata `{"a": "1"}` and an update of node `A` with metadata
`{"b": 2}`. -/
theorem c9_witness :
    (ncMeta.parent_id = none
      ∧ gLeaf.nodes.any (fun n => n.id == "N") = false
      ∧ findNode gLeaf "A" = some nodeMainA)
    ∧ ((get_node (create_node gLeaf "s" ncMeta "N" none).1 "N").map NodeView.metadata
        = some (setKey ncMeta.metadata "message_count" (.jnum 0)))
    ∧ ((get_node (update_node_metadata gLeaf "A" [("b", JVal.jnum 2)]) "A").map
          NodeView.metadata
        = some (setKey [("b", JVal.jnum 2)] "message_count"
            (.jnum ((gLeaf.messages.filter (fun mm => mm.node_id == "A")).length)))) :=
  ⟨⟨by decide, by decide, by decide⟩,
    (c9_metadata_roundtrip gLeaf "s" ncMeta "N" none [("b", JVal.jnum 2)] "A"
      nodeMainA (by decide) (by decide) (by decide) (by decide)).1,
    (c9_metadata_roundtrip gLeaf "s" ncMeta "N" none [("b", JVal.jnum 2)] "A"
      nodeMainA (by decide) (by decide) (by decide) (by decide)).2⟩

/-! ## Claim C10

Totality of `get_conversation_history` under store failure. -/

theorem get_node_messages_onlyF_true (g : Graph) (nid : String) :
    get_node_messages_onlyF g true nid = get_node_messages_only g nid := rfl

theorem referenceCoreF_true (g : Graph) (nid : String) (src : Option (List String))
    (pm : List Msg) : referenceCoreF g true nid src pm = referenceCore g nid src pm := rfl

theorem ordinaryHistoryF_true (g : Graph) (nid : String) (inc : Bool) :
    ordinaryHistoryF g true nid inc = .ok (ordinaryHistory g nid inc) := by
  cases inc <;> rfl

theorem gchF_agrees (g : Graph) :
    ∀ (fuel : Nat) (nid : String) (inc : Bool),
      get_conversation_historyF g true fuel nid inc
        = get_conversation_history g fuel nid inc
  | 0, _, _ => rfl
  | fuel + 1, nid, inc => by
    rw [get_conversation_historyF, get_conversation_history]
    cases hf : findNode g nid with
    | none =>
      show catchEmpty (ordinaryHistoryF g true nid inc) = ordinaryHistory g nid inc
      rw [ordinaryHistoryF_true]
      rfl
    | some n =>
      show catchEmpty
          (if n.is_reference || n.type == "reference" then
            pure (referenceCoreF g true nid n.source_node_ids
              (match parentLookup g nid with
                | some pid => (get_conversation_historyF g true fuel pid true).messages
                | none => []))
          else ordinaryHistoryF g true nid inc)
        = if n.is_reference || n.type == "reference" then
            referenceCore g nid n.source_node_ids
              (match parentLookup g nid with
                | some pid => (get_conversation_history g fuel pid true).messages
                | none => [])
          else ordinaryHistory g nid inc
      by_cases hr : (n.is_reference || n.type == "reference") = true
      · rw [if_pos hr, if_pos hr]
        cases hp : parentLookup g nid with
        | none => rfl
        | some pid =>
          show catchEmpty (pure (referenceCoreF g true nid n.source_node_ids
              (get_conversation_historyF g true fuel pid true).messages))
            = referenceCore g nid n.source_node_ids
              (get_conversation_history g fuel pid true).messages
          rw [gchF_agrees g fuel pid true]
          rfl
      · rw [if_neg hr, if_neg hr]
        rw [ordinaryHistoryF_true]
        rfl

theorem gchF_store_down (g : Graph) (fuel : Nat) (nid : String) (inc : Bool) :
    get_conversation_historyF g false fuel nid inc = emptyHistory := by
  cases fuel with
  | zero => rfl
  | succ fuel => rfl

/-- C10, confirmed: `get_conversation_history` is a total function whose
whole body sits inside `try/except`; with the store down every query raises,
so the first (node-check) access aborts into the `except` and the call
returns exactly `ConversationHistory(messages=[], total_tokens=0,
is_summarized=False)` (first conjunct); with the store healthy the
instrumented version coincides with the pure model (second conjunct); and
that failure value is exactly what is returned for an ordinary node whose
walk meets no summary ancestor and whose path nodes carry no messages
(third conjunct) — so a turn whose context assembly fails proceeds with an
empty context, indistinguishable from a fresh node. -/
theorem c10_failure_yields_empty (g : Graph) (fuel : Nat) (nid : String)
    (inc : Bool) (n : GNode) :
    (get_conversation_historyF g false fuel nid inc = emptyHistory)
    ∧ (get_conversation_historyF g true fuel nid inc
        = get_conversation_history g fuel nid inc)
    ∧ (findNode g nid = some n →
        (n.is_reference || n.type == "reference") = false →
        (takeUntilSummary (ancestorPathFull g nid)).2 = false →
        g.messages.filter (fun m =>
          (takeUntilSummary (ancestorPathFull g nid)).1.contains m.node_id) = [] →
        get_conversation_history g (fuel + 1) nid true = emptyHistory) := by
  refine ⟨gchF_store_down g fuel nid inc, gchF_agrees g fuel nid inc, ?_⟩
  intro hf hr hsum hmsg
  rw [get_conversation_history, hf]
  show (if n.is_reference || n.type == "reference" then _ else _) = emptyHistory
  rw [if_neg (by simp [hr])]
  rw [ordinaryHistory]
  simp only [if_true]
  rw [hsum]
  split
  · rfl
  · rw [fetchMessagesSorted, hmsg]
    rfl

/-- C10, witness: the theorem applied to the leaf snapshot `gLeaf` (node
`A`, no messages, no summary ancestor). -/
theorem c10_witness :
    (findNode gLeaf "A" = some nodeMainA
      ∧ (takeUntilSummary (ancestorPathFull gLeaf "A")).2 = false)
    ∧ (get_conversation_historyF gLeaf false 3 "A" true = emptyHistory)
    ∧ (get_conversation_historyF gLeaf true 3 "A" true
        = get_conversation_history gLeaf 3 "A" true)
    ∧ (get_conversation_history gLeaf (3 + 1) "A" true = emptyHistory) :=
  ⟨⟨by decide, by decide⟩,
    (c10_failure_yields_empty gLeaf 3 "A" true nodeMainA).1,
    (c10_failure_yields_empty gLeaf 3 "A" true nodeMainA).2.1,
    (c10_failure_yields_empty gLeaf 3 "A" true nodeMainA).2.2
      (by decide) (by decide) (by decide) (by decide)⟩

end GraphChat
